import Mathlib

/-!
Shallow embedding of the AQI daily-aggregation pipeline of
`src/aqi_fetcher_python.py` (functions `get_aqi_data` and
`get_aqi_description`), together with theorems settling the spec claims.

Modelling conventions:
* Python numbers are modelled exactly: timestamps and AQI codes as `Int`,
  pollutant concentrations as `ℚ`.
* Python dicts are modelled as association lists in insertion order;
  `lookupKey` is dict lookup and `upsert` is the mutation
  `d[k] = f(d[k])` on a `defaultdict` (the entry is created at the end of
  the insertion order on first access, as `defaultdict` does).
* Raising `KeyError(k)` / `ZeroDivisionError` and the `try/except`-and-reraise
  at the bottom of `get_aqi_data` are modelled by `Except PipeError`,
  short-circuiting exactly where the Python exception would propagate.
* `datetime.fromtimestamp(dt).strftime('%Y-%m-%d')` truncates the timestamp
  to its calendar date under one fixed time reference.  The date string is a
  bijective, order-preserving image of the day number, and
  `datetime.strptime(x['date'], '%Y-%m-%d')` (the sort key on line 98)
  inverts it, so the day key is modelled as the day number
  `dayKey dt = dt.fdiv 86400` and sorting by parsed date is sorting by that
  integer.
* `round` is Python 3 `round`: round-half-to-even (`roundHalfEven`), and
  `round(x, 2)` rounds to two decimal places half-to-even (`round2`).
* `final_data.sort(key=...)` is Python's stable ascending sort; it is
  modelled by the stable `List.insertionSort` on the date key, which is
  extensionally the unique stable ascending sort.
-/

namespace BlrAqi

/-- Errors the pipeline can raise: Python `KeyError(key)` (a required field
is missing from a raw record) and `ZeroDivisionError` (an average of an
empty sample list was requested). -/
inductive PipeError where
  | keyError (key : String)
  | zeroDivision
  deriving DecidableEq, Repr

/-- Dict lookup on an association list (first match, as in a Python dict,
whose keys are unique). -/
def lookupKey {κ α : Type} [DecidableEq κ] : List (κ × α) → κ → Option α
  | [], _ => none
  | (k2, v) :: rest, k => if k2 = k then some v else lookupKey rest k

/-- `defaultdict` mutation `d[k] = f(d[k])`: the first entry with key `k` is
updated by `f`; if no entry exists, `(k, f dflt)` is appended at the end of
the insertion order, as `defaultdict` creates the default on first access. -/
def upsert {κ α : Type} [DecidableEq κ] (l : List (κ × α)) (k : κ) (dflt : α)
    (f : α → α) : List (κ × α) :=
  match l with
  | [] => [(k, f dflt)]
  | (k2, v) :: rest =>
    if k2 = k then (k2, f v) :: rest else (k2, v) :: upsert rest k dflt f

/-- One raw provider record (`item` in lines 48-64): the fields the code
reads, each possibly missing.  `item['dt']` and `item['main']['aqi']` are
scalar accesses; `components` is the `item['components']` sub-dict. -/
structure RawItem where
  dt : Option Int
  main_aqi : Option Int
  components : List (String × ℚ)
  deriving DecidableEq, Repr

/-- One normalized reading (an entry of `processed_data`, lines 50-64).
The `datetime` field of the Python dict is carried but never read by the
aggregation, so it is omitted; `date` is the day key (see `dayKey`). -/
structure Reading where
  date : Int
  aqi : Int
  pollutants : List (String × ℚ)
  deriving DecidableEq, Repr

/-- One per-day accumulation bucket (an entry of `daily_data`, lines 67-77). -/
structure Bucket where
  aqi_values : List Int
  pollutants : List (String × List ℚ)
  deriving DecidableEq, Repr

/-- One output record (an entry of `final_data`, lines 90-95). -/
structure DailySummary where
  date : Int
  aqi : Int
  aqi_description : String
  pollutants : List (String × ℚ)
  deriving DecidableEq, Repr

/-- Calendar-date key of a timestamp under the fixed time reference:
the day number of `dt` (floor division, so pre-epoch timestamps land on
the correct earlier day). -/
def dayKey (dt : Int) : Int := Int.fdiv dt 86400

/-- Python scalar field access `item[k]`: `KeyError(k)` when absent. -/
def getKey {α : Type} (o : Option α) (k : String) : Except PipeError α :=
  match o with
  | some v => Except.ok v
  | none => Except.error (PipeError.keyError k)

/-- Python dict access `item['components'][k]`: `KeyError(k)` when absent. -/
def getComp (comps : List (String × ℚ)) (k : String) : Except PipeError ℚ :=
  match lookupKey comps k with
  | some v => Except.ok v
  | none => Except.error (PipeError.keyError k)

/-- Normalization of one raw record (lines 49-64): read `dt`, the AQI code,
and the eight pollutant channels in source order, failing with the first
missing key. -/
def normalize (item : RawItem) : Except PipeError Reading := do
  let dt ← getKey item.dt "dt"
  let aqi ← getKey item.main_aqi "aqi"
  let co ← getComp item.components "co"
  let no ← getComp item.components "no"
  let no2 ← getComp item.components "no2"
  let o3 ← getComp item.components "o3"
  let so2 ← getComp item.components "so2"
  let pm2_5 ← getComp item.components "pm2_5"
  let pm10 ← getComp item.components "pm10"
  let nh3 ← getComp item.components "nh3"
  pure ⟨dayKey dt, aqi,
    [("co", co), ("no", no), ("no2", no2), ("o3", o3),
     ("so2", so2), ("pm2_5", pm2_5), ("pm10", pm10), ("nh3", nh3)]⟩

/-- The `for item in data['list']` loop building `processed_data`
(lines 47-64): the first raised `KeyError` aborts the whole run. -/
def processItems : List RawItem → Except PipeError (List Reading)
  | [] => Except.ok []
  | item :: rest =>
    match normalize item with
    | Except.error e => Except.error e
    | Except.ok r =>
      match processItems rest with
      | Except.error e => Except.error e
      | Except.ok rs => Except.ok (r :: rs)

/-- `daily_data[date]['pollutants'][pollutant].append(value)` (line 77). -/
def appendPollutant (ps : List (String × List ℚ)) (name : String) (v : ℚ) :
    List (String × List ℚ) :=
  upsert ps name [] (fun vs => vs ++ [v])

/-- A fresh bucket, the default of the `daily_data` defaultdict (lines 67-70). -/
def emptyBucket : Bucket := ⟨[], []⟩

/-- Add one reading's samples to a bucket (lines 74-77): append the AQI code
and each pollutant value in the reading's iteration order. -/
def bucketAdd (b : Bucket) (r : Reading) : Bucket :=
  ⟨b.aqi_values ++ [r.aqi],
   r.pollutants.foldl (fun ps pv => appendPollutant ps pv.1 pv.2) b.pollutants⟩

/-- One iteration of the grouping loop (lines 72-77) on the `daily_data`
mapping. -/
def addToDaily (dd : List (Int × Bucket)) (r : Reading) : List (Int × Bucket) :=
  upsert dd r.date emptyBucket (fun b => bucketAdd b r)

/-- The grouping loop (lines 66-77): fold the readings into the per-day
buckets, in arrival order. -/
def groupByDate (rs : List Reading) : List (Int × Bucket) :=
  rs.foldl addToDaily []

/-- Python 3 `round(q)`: round half to even, exact on rationals. -/
def roundHalfEven (q : ℚ) : Int :=
  if q - ⌊q⌋ < 1/2 then ⌊q⌋
  else if (1 : ℚ)/2 < q - ⌊q⌋ then ⌊q⌋ + 1
  else if ⌊q⌋ % 2 = 0 then ⌊q⌋ else ⌊q⌋ + 1

/-- Python 3 `round(q, 2)`: round to 2 decimal places, half to even. -/
def round2 (q : ℚ) : ℚ := (roundHalfEven (q * 100) : ℚ) / 100

/-- The AQI description table (lines 114-120). -/
def descriptions : List (Int × String) :=
  [(1, "Good"), (2, "Fair"), (3, "Moderate"), (4, "Poor"), (5, "Very Poor")]

/-- `get_aqi_description` (lines 112-121): `descriptions.get(aqi, 'Unknown')`. -/
def get_aqi_description (aqi : Int) : String :=
  (lookupKey descriptions aqi).getD "Unknown"

/-- The pollutant-averaging loop (lines 86-88): for each channel present in
the bucket, in insertion order, `round(sum(values) / len(values), 2)`;
an empty sample list raises `ZeroDivisionError`. -/
def avgPollutants : List (String × List ℚ) → Except PipeError (List (String × ℚ))
  | [] => Except.ok []
  | (name, values) :: rest =>
    if values.length = 0 then Except.error PipeError.zeroDivision
    else
      match avgPollutants rest with
      | Except.error e => Except.error e
      | Except.ok tail =>
        Except.ok ((name, round2 (values.sum / (values.length : ℚ))) :: tail)

/-- Summarize one bucket (lines 81-95): average AQI (line 83), average
pollutants (lines 86-88), attach the description (line 93). -/
def summarize (d : Int) (b : Bucket) : Except PipeError DailySummary :=
  if b.aqi_values.length = 0 then Except.error PipeError.zeroDivision
  else
    match avgPollutants b.pollutants with
    | Except.error e => Except.error e
    | Except.ok avgp =>
      let a := roundHalfEven (((b.aqi_values.sum : Int) : ℚ) / (b.aqi_values.length : ℚ))
      Except.ok ⟨d, a, get_aqi_description a, avgp⟩

/-- The `for date, data_dict in daily_data.items()` loop (lines 80-95), in
bucket insertion order. -/
def summarizeAll : List (Int × Bucket) → Except PipeError (List DailySummary)
  | [] => Except.ok []
  | (d, b) :: rest =>
    match summarize d b with
    | Except.error e => Except.error e
    | Except.ok s =>
      match summarizeAll rest with
      | Except.error e => Except.error e
      | Except.ok ss => Except.ok (s :: ss)

/-- The decidable date order used as the sort key. -/
def dateLe (a b : DailySummary) : Prop := a.date ≤ b.date

instance : DecidableRel dateLe := fun a b => Int.decLe a.date b.date

instance : IsTotal DailySummary dateLe := ⟨fun a b => Int.le_total a.date b.date⟩

instance : IsTrans DailySummary dateLe := ⟨fun _ _ _ h1 h2 => le_trans h1 h2⟩

/-- `final_data.sort(key=lambda x: datetime.strptime(x['date'], '%Y-%m-%d'))`
(line 98): Python's stable ascending sort by date, modelled by the stable
`insertionSort`. -/
def sortByDate (l : List DailySummary) : List DailySummary :=
  l.insertionSort dateLe

/-- The aggregation stage of `get_aqi_data` (lines 66-100): group the
normalized readings by date, summarize every bucket, sort by date. -/
def aggregate (rs : List Reading) : Except PipeError (List DailySummary) :=
  match summarizeAll (groupByDate rs) with
  | Except.error e => Except.error e
  | Except.ok final => Except.ok (sortByDate final)

/-- `get_aqi_data` on an already-fetched raw list (lines 46-100): normalize
every item, then aggregate.  Any raised error propagates (lines 102-110
re-raise every exception after printing). -/
def get_aqi_data (items : List RawItem) : Except PipeError (List DailySummary) :=
  match processItems items with
  | Except.error e => Except.error e
  | Except.ok rs => aggregate rs

/-- The per-day AQI sample list the grouping assigns to day `d`
(`daily_data[d]['aqi_values']`, empty when `d` has no bucket). -/
def dayAqiSamples (rs : List Reading) (d : Int) : List Int :=
  ((lookupKey (groupByDate rs) d).map Bucket.aqi_values).getD []

/-- The sample list of channel `c` inside a bucket's pollutant mapping. -/
def chanVals (ps : List (String × List ℚ)) (c : String) : List ℚ :=
  (lookupKey ps c).getD []

/-- The per-day sample list of channel `c` the grouping assigns to day `d`
(`daily_data[d]['pollutants'][c]`, empty when absent). -/
def dayChanSamples (rs : List Reading) (d : Int) (c : String) : List ℚ :=
  ((lookupKey (groupByDate rs) d).map (fun b => chanVals b.pollutants c)).getD []

end BlrAqi

deriving instance DecidableEq for Except

namespace BlrAqi

/-- A full eight-channel reading, for concrete test inputs. -/
def sampleReading (d a : Int) (pm : ℚ) : Reading :=
  ⟨d, a, [("co", 1), ("no", 2), ("no2", 3), ("o3", 4),
          ("so2", 5), ("pm2_5", pm), ("pm10", 7), ("nh3", 8)]⟩

/-- A full eight-channel raw record, for concrete test inputs. -/
def sampleRaw (dt a : Int) (pm : ℚ) : RawItem :=
  ⟨some dt, some a, [("co", 1), ("no", 2), ("no2", 3), ("o3", 4),
                     ("so2", 5), ("pm2_5", pm), ("pm10", 7), ("nh3", 8)]⟩

/-- One day of readings carrying AQI codes `[2, 3, 3, 4]`. -/
def c2AqiReadings : List Reading :=
  [sampleReading 1 2 10, sampleReading 1 3 20,
   sampleReading 1 3 10, sampleReading 1 4 20]

/-- One day of readings carrying `pm2_5` samples `[10, 20]`. -/
def c2PmReadings : List Reading :=
  [sampleReading 1 1 10, sampleReading 1 1 20]

/-- Two raw records on two distinct days, newest first. -/
def c9Items : List RawItem :=
  [sampleRaw 90000 2 10, sampleRaw 4000 3 20]

/-- The summary list `get_aqi_data` produces from `c9Items`. -/
def c9Out : List DailySummary :=
  [⟨0, 3, "Moderate",
    [("co", 1), ("no", 2), ("no2", 3), ("o3", 4), ("so2", 5),
     ("pm2_5", 20), ("pm10", 7), ("nh3", 8)]⟩,
   ⟨1, 2, "Fair",
    [("co", 1), ("no", 2), ("no2", 3), ("o3", 4), ("so2", 5),
     ("pm2_5", 10), ("pm10", 7), ("nh3", 8)]⟩]

/-- Three readings over two days, out of date order. -/
def c1In : List Reading :=
  [sampleReading 5 2 10, sampleReading 4 1 20, sampleReading 5 4 30]

/-- The summary list `aggregate` produces from `c1In`. -/
def c1Out : List DailySummary :=
  [⟨4, 1, "Good",
    [("co", 1), ("no", 2), ("no2", 3), ("o3", 4), ("so2", 5),
     ("pm2_5", 20), ("pm10", 7), ("nh3", 8)]⟩,
   ⟨5, 3, "Moderate",
    [("co", 1), ("no", 2), ("no2", 3), ("o3", 4), ("so2", 5),
     ("pm2_5", 20), ("pm10", 7), ("nh3", 8)]⟩]

/-- Three single-reading days arriving in reverse chronological order. -/
def c3In : List Reading :=
  [sampleReading 3 1 10, sampleReading 2 2 10, sampleReading 1 3 10]

/-- The summary list `aggregate` produces from `c3In`: ascending by date. -/
def c3Out : List DailySummary :=
  [⟨1, 3, "Moderate",
    [("co", 1), ("no", 2), ("no2", 3), ("o3", 4), ("so2", 5),
     ("pm2_5", 10), ("pm10", 7), ("nh3", 8)]⟩,
   ⟨2, 2, "Fair",
    [("co", 1), ("no", 2), ("no2", 3), ("o3", 4), ("so2", 5),
     ("pm2_5", 10), ("pm10", 7), ("nh3", 8)]⟩,
   ⟨3, 1, "Good",
    [("co", 1), ("no", 2), ("no2", 3), ("o3", 4), ("so2", 5),
     ("pm2_5", 10), ("pm10", 7), ("nh3", 8)]⟩]

/-- A raw record whose `components` sub-dict is missing the `so2` channel. -/
def c6BadItem : RawItem :=
  ⟨some 90000, some 2,
   [("co", 1), ("no", 2), ("no2", 3), ("o3", 4),
    ("pm2_5", 6), ("pm10", 7), ("nh3", 8)]⟩

/-- A run containing one well-formed record and one record missing `so2`. -/
def c6Items : List RawItem := [sampleRaw 4000 1 10, c6BadItem]

/-- A bucket whose pollutant mapping has no `so2` entry at all. -/
def c7MissingBucket : Bucket :=
  ⟨[2], [("co", [1]), ("no", [2]), ("no2", [3]), ("o3", [4]),
         ("pm2_5", [6]), ("pm10", [7]), ("nh3", [8])]⟩

/-- The summary `summarize` produces from `c7MissingBucket`: it succeeds and
silently omits the `so2` channel. -/
def c7MissingOut : DailySummary :=
  ⟨0, 2, "Fair",
   [("co", 1), ("no", 2), ("no2", 3), ("o3", 4),
    ("pm2_5", 6), ("pm10", 7), ("nh3", 8)]⟩

/-- A bucket whose `so2` entry is present but carries no samples. -/
def c7EmptyBucket : Bucket := ⟨[2], [("so2", [])]⟩

/-- A single reading whose `pm2_5` sample `10.004` has more than two decimal
places. -/
def c8Precise : Reading :=
  ⟨1, 2, [("co", 1), ("no", 2), ("no2", 3), ("o3", 4), ("so2", 5),
          ("pm2_5", 10004/1000), ("pm10", 7), ("nh3", 8)]⟩

/-- The summary `aggregate` produces from `[c8Precise]`: `pm2_5` is rounded
to `10`, not carried unchanged. -/
def c8PreciseOut : DailySummary :=
  ⟨1, 2, "Fair",
   [("co", 1), ("no", 2), ("no2", 3), ("o3", 4), ("so2", 5),
    ("pm2_5", 10), ("pm10", 7), ("nh3", 8)]⟩

/-- Readings whose AQI codes all lie in 1..5. -/
def c10In : List Reading :=
  [sampleReading 1 5 10, sampleReading 1 5 10, sampleReading 2 1 10]

/-- The summary list `aggregate` produces from `c10In`. -/
def c10Out : List DailySummary :=
  [⟨1, 5, "Very Poor",
    [("co", 1), ("no", 2), ("no2", 3), ("o3", 4), ("so2", 5),
     ("pm2_5", 10), ("pm10", 7), ("nh3", 8)]⟩,
   ⟨2, 1, "Good",
    [("co", 1), ("no", 2), ("no2", 3), ("o3", 4), ("so2", 5),
     ("pm2_5", 10), ("pm10", 7), ("nh3", 8)]⟩]

end BlrAqi

namespace BlrAqi

unseal Rat.mul Rat.add Rat.sub Rat.inv

/-- Claim C5: aggregating an empty sequence of readings returns an empty
summary list and does not raise an error; the same holds for the full
pipeline on an empty raw list. -/
theorem c5_empty_input :
    aggregate [] = Except.ok [] ∧ get_aqi_data [] = Except.ok [] := by
  decide

/-- Claim C4: the classification function is total on the integers and maps
1..5 to Good/Fair/Moderate/Poor/Very Poor and every integer outside 1..5 to
the designated label Unknown. -/
theorem c4_classification (n : Int) (h : n < 1 ∨ 5 < n) :
    get_aqi_description n = "Unknown" ∧
    get_aqi_description 1 = "Good" ∧
    get_aqi_description 2 = "Fair" ∧
    get_aqi_description 3 = "Moderate" ∧
    get_aqi_description 4 = "Poor" ∧
    get_aqi_description 5 = "Very Poor" := by
  refine ⟨?_, by decide, by decide, by decide, by decide, by decide⟩
  have hnone : lookupKey descriptions n = none := by
    simp only [descriptions, lookupKey]
    rw [if_neg (by omega), if_neg (by omega), if_neg (by omega),
      if_neg (by omega), if_neg (by omega)]
  simp [get_aqi_description, hnone]

/-- Witness for C4 at the concrete out-of-domain input 0. -/
theorem c4_classification_witness :
    get_aqi_description 0 = "Unknown" ∧
    get_aqi_description 1 = "Good" ∧
    get_aqi_description 2 = "Fair" ∧
    get_aqi_description 3 = "Moderate" ∧
    get_aqi_description 4 = "Poor" ∧
    get_aqi_description 5 = "Very Poor" :=
  c4_classification 0 (Or.inl (by decide))

/-- Claim C2: a single day with AQI samples `[2, 3, 3, 4]` aggregates to
`aqi = 3` labelled `Moderate`, and a single day with `pm2_5` samples
`[10, 20]` aggregates to `pm2_5 = 15` (the mean rounded to 2 decimals). -/
theorem c2_daily_means :
    aggregate c2AqiReadings =
      Except.ok [⟨1, 3, "Moderate",
        [("co", 1), ("no", 2), ("no2", 3), ("o3", 4), ("so2", 5),
         ("pm2_5", 15), ("pm10", 7), ("nh3", 8)]⟩] ∧
    aggregate c2PmReadings =
      Except.ok [⟨1, 1, "Good",
        [("co", 1), ("no", 2), ("no2", 3), ("o3", 4), ("so2", 5),
         ("pm2_5", 15), ("pm10", 7), ("nh3", 8)]⟩] := by
  decide

/-- Claim C9: the pipeline is deterministic — two runs on the same input
yield the same summary list. -/
theorem c9_deterministic (items : List RawItem)
    (out1 out2 : Except PipeError (List DailySummary))
    (h1 : get_aqi_data items = out1) (h2 : get_aqi_data items = out2) :
    out1 = out2 := by
  rw [← h1, ← h2]

/-- Witness for C9: two runs on the concrete input `c9Items`, both yielding
`c9Out`. -/
theorem c9_deterministic_witness :
    get_aqi_data c9Items = Except.ok c9Out ∧
    (Except.ok c9Out : Except PipeError (List DailySummary)) = Except.ok c9Out :=
  ⟨by decide, c9_deterministic c9Items (Except.ok c9Out) (Except.ok c9Out)
    (by decide) (by decide)⟩

theorem lookupKey_upsert {κ α : Type} [DecidableEq κ] (l : List (κ × α))
    (k k2 : κ) (dflt : α) (f : α → α) :
    lookupKey (upsert l k dflt f) k2 =
      if k2 = k then some (f ((lookupKey l k).getD dflt)) else lookupKey l k2 := by
  induction l with
  | nil =>
    by_cases h : k2 = k
    · subst h; simp [upsert, lookupKey]
    · simp [upsert, lookupKey, h, Ne.symm h]
  | cons hd tl ih =>
    obtain ⟨k1, v⟩ := hd
    by_cases h1 : k1 = k
    · subst h1
      by_cases h2 : k2 = k1
      · subst h2; simp [upsert, lookupKey]
      · simp [upsert, lookupKey, h2, Ne.symm h2]
    · by_cases h2 : k2 = k1
      · subst h2
        simp [upsert, lookupKey, h1, Ne.symm h1, ih]
      · simp [upsert, lookupKey, h1, h2, Ne.symm h2, ih]

theorem map_fst_upsert {κ α : Type} [DecidableEq κ] (l : List (κ × α))
    (k : κ) (dflt : α) (f : α → α) :
    (upsert l k dflt f).map Prod.fst =
      if k ∈ l.map Prod.fst then l.map Prod.fst else l.map Prod.fst ++ [k] := by
  induction l with
  | nil => simp [upsert]
  | cons hd tl ih =>
    obtain ⟨k1, v⟩ := hd
    simp only [upsert]
    by_cases h1 : k1 = k
    · subst h1; simp
    · simp only [if_neg h1, List.map_cons, ih, List.mem_cons]
      by_cases hm : k ∈ tl.map Prod.fst
      · simp [hm]
      · have hk1 : ¬(k = k1) := fun hh => h1 hh.symm
        simp [hm, hk1]

theorem chanVals_appendPollutant (ps : List (String × List ℚ)) (n c : String)
    (v : ℚ) :
    chanVals (appendPollutant ps n v) c =
      if c = n then chanVals ps c ++ [v] else chanVals ps c := by
  unfold chanVals appendPollutant
  rw [lookupKey_upsert]
  by_cases h : c = n
  · subst h; cases lookupKey ps c <;> simp
  · simp [h]

theorem chanVals_foldl_appendPollutant (l : List (String × ℚ))
    (ps : List (String × List ℚ)) (c : String) :
    chanVals (l.foldl (fun acc pv => appendPollutant acc pv.1 pv.2) ps) c =
      chanVals ps c ++ (l.filter (fun pv => pv.1 = c)).map Prod.snd := by
  induction l generalizing ps with
  | nil => simp
  | cons hd tl ih =>
    obtain ⟨n, v⟩ := hd
    simp only [List.foldl_cons, ih, chanVals_appendPollutant, List.filter_cons]
    by_cases h : n = c
    · subst h; simp
    · have h2 : ¬(c = n) := fun hh => h hh.symm
      simp [h, h2]

theorem chanVals_nil (c : String) : chanVals [] c = [] := rfl

theorem bucketAdd_aqi_values (b : Bucket) (r : Reading) :
    (bucketAdd b r).aqi_values = b.aqi_values ++ [r.aqi] := rfl

theorem bucketAdd_chanVals (b : Bucket) (r : Reading) (c : String) :
    chanVals (bucketAdd b r).pollutants c =
      chanVals b.pollutants c ++
        (r.pollutants.filter (fun pv => pv.1 = c)).map Prod.snd :=
  chanVals_foldl_appendPollutant r.pollutants b.pollutants c

theorem lookupKey_addToDaily (dd : List (Int × Bucket)) (r : Reading) (d : Int) :
    lookupKey (addToDaily dd r) d =
      if d = r.date then
        some (bucketAdd ((lookupKey dd r.date).getD emptyBucket) r)
      else lookupKey dd d := by
  unfold addToDaily
  rw [lookupKey_upsert]

theorem getD_map_aqi_values (o : Option Bucket) :
    (o.map Bucket.aqi_values).getD [] = (o.getD emptyBucket).aqi_values := by
  cases o <;> rfl

theorem getD_map_chanVals (o : Option Bucket) (c : String) :
    (o.map (fun b => chanVals b.pollutants c)).getD [] =
      chanVals (o.getD emptyBucket).pollutants c := by
  cases o <;> rfl

theorem aqi_foldl_addToDaily (rs : List Reading) (dd : List (Int × Bucket))
    (d : Int) :
    ((lookupKey (rs.foldl addToDaily dd) d).map Bucket.aqi_values).getD [] =
      ((lookupKey dd d).map Bucket.aqi_values).getD [] ++
        (rs.filter (fun r => r.date = d)).map Reading.aqi := by
  induction rs generalizing dd with
  | nil => simp
  | cons r rest ih =>
    simp only [List.foldl_cons, ih, lookupKey_addToDaily, List.filter_cons]
    by_cases h : r.date = d
    · rw [if_pos h.symm, getD_map_aqi_values, if_pos (by simpa using h)]
      cases hk : lookupKey dd r.date <;>
        simp [bucketAdd_aqi_values, ← h, hk, getD_map_aqi_values, emptyBucket]
    · rw [if_neg (fun hh => h hh.symm), if_neg (by simpa using h)]

theorem chan_foldl_addToDaily (rs : List Reading) (dd : List (Int × Bucket))
    (d : Int) (c : String) :
    ((lookupKey (rs.foldl addToDaily dd) d).map
        (fun b => chanVals b.pollutants c)).getD [] =
      ((lookupKey dd d).map (fun b => chanVals b.pollutants c)).getD [] ++
        (rs.filter (fun r => r.date = d)).flatMap
          (fun r => (r.pollutants.filter (fun pv => pv.1 = c)).map Prod.snd) := by
  induction rs generalizing dd with
  | nil => simp
  | cons r rest ih =>
    simp only [List.foldl_cons, ih, lookupKey_addToDaily, List.filter_cons]
    by_cases h : r.date = d
    · rw [if_pos h.symm, getD_map_chanVals, if_pos (by simpa using h)]
      cases hk : lookupKey dd r.date <;>
        simp [bucketAdd_chanVals, ← h, hk, getD_map_chanVals, emptyBucket,
          chanVals_nil]
    · rw [if_neg (fun hh => h hh.symm), if_neg (by simpa using h)]

theorem mem_keys_foldl_addToDaily (rs : List Reading) (dd : List (Int × Bucket))
    (d : Int) :
    d ∈ (rs.foldl addToDaily dd).map Prod.fst ↔
      d ∈ dd.map Prod.fst ∨ d ∈ rs.map Reading.date := by
  induction rs generalizing dd with
  | nil => simp
  | cons r rest ih =>
    simp only [List.foldl_cons, ih, List.map_cons, List.mem_cons]
    have hkeys := map_fst_upsert dd r.date emptyBucket (fun b => bucketAdd b r)
    unfold addToDaily
    rw [hkeys]
    by_cases hm : r.date ∈ dd.map Prod.fst
    · rw [if_pos hm]
      constructor
      · rintro (h | h)
        · exact Or.inl h
        · exact Or.inr (Or.inr h)
      · rintro (h | rfl | h)
        · exact Or.inl h
        · exact Or.inl hm
        · exact Or.inr h
    · rw [if_neg hm]
      simp only [List.mem_append, List.mem_singleton]
      tauto

theorem nodup_keys_foldl_addToDaily (rs : List Reading)
    (dd : List (Int × Bucket)) (h : (dd.map Prod.fst).Nodup) :
    ((rs.foldl addToDaily dd).map Prod.fst).Nodup := by
  induction rs generalizing dd with
  | nil => exact h
  | cons r rest ih =>
    rw [List.foldl_cons]
    apply ih
    unfold addToDaily
    rw [map_fst_upsert]
    by_cases hm : r.date ∈ dd.map Prod.fst
    · rwa [if_pos hm]
    · rw [if_neg hm]
      simp [List.nodup_append, h, hm]

theorem keys_groupByDate_nodup (rs : List Reading) :
    ((groupByDate rs).map Prod.fst).Nodup :=
  nodup_keys_foldl_addToDaily rs [] (by simp)

theorem mem_keys_groupByDate (rs : List Reading) (d : Int) :
    d ∈ (groupByDate rs).map Prod.fst ↔ d ∈ rs.map Reading.date := by
  rw [groupByDate, mem_keys_foldl_addToDaily]
  simp

theorem keys_groupByDate_perm_dedup (rs : List Reading) :
    ((groupByDate rs).map Prod.fst).Perm ((rs.map Reading.date).dedup) :=
  (List.perm_ext_iff_of_nodup (keys_groupByDate_nodup rs)
    (List.nodup_dedup _)).2
    (fun d => by rw [mem_keys_groupByDate, List.mem_dedup])

theorem summarize_ok_fields (d : Int) (b : Bucket) (s : DailySummary)
    (h : summarize d b = Except.ok s) :
    s.date = d ∧
    s.aqi = roundHalfEven (((b.aqi_values.sum : Int) : ℚ) / (b.aqi_values.length : ℚ)) ∧
    s.aqi_description = get_aqi_description s.aqi := by
  unfold summarize at h
  split at h
  · cases h
  · split at h
    · cases h
    · cases h
      exact ⟨rfl, rfl, rfl⟩

theorem summarizeAll_ok_dates (l : List (Int × Bucket))
    (out : List DailySummary) (h : summarizeAll l = Except.ok out) :
    out.map DailySummary.date = l.map Prod.fst := by
  induction l generalizing out with
  | nil => cases h; rfl
  | cons p rest ih =>
    obtain ⟨d, b⟩ := p
    unfold summarizeAll at h
    cases hs : summarize d b with
    | error e => rw [hs] at h; cases h
    | ok s =>
      rw [hs] at h
      cases hrest : summarizeAll rest with
      | error e => rw [hrest] at h; cases h
      | ok ss =>
        rw [hrest] at h
        cases h
        simp [ih ss hrest, (summarize_ok_fields d b s hs).1]

theorem summarizeAll_ok_mem (l : List (Int × Bucket)) (out : List DailySummary)
    (s : DailySummary) (h : summarizeAll l = Except.ok out) (hs : s ∈ out) :
    ∃ d b, (d, b) ∈ l ∧ summarize d b = Except.ok s := by
  induction l generalizing out with
  | nil => cases h; cases hs
  | cons p rest ih =>
    obtain ⟨d, b⟩ := p
    unfold summarizeAll at h
    cases hsum : summarize d b with
    | error e => rw [hsum] at h; cases h
    | ok s1 =>
      rw [hsum] at h
      cases hrest : summarizeAll rest with
      | error e => rw [hrest] at h; cases h
      | ok ss =>
        rw [hrest] at h
        cases h
        rcases List.mem_cons.1 hs with rfl | hmem
        · exact ⟨d, b, List.mem_cons_self _ _, hsum⟩
        · obtain ⟨d2, b2, hm2, hok2⟩ := ih ss hrest hmem
          exact ⟨d2, b2, List.mem_cons_of_mem _ hm2, hok2⟩

theorem aggregate_ok_elim (rs : List Reading) (out : List DailySummary)
    (h : aggregate rs = Except.ok out) :
    ∃ final, summarizeAll (groupByDate rs) = Except.ok final ∧
      out = sortByDate final := by
  unfold aggregate at h
  cases hsum : summarizeAll (groupByDate rs) with
  | error e => rw [hsum] at h; cases h
  | ok final =>
    rw [hsum] at h
    cases h
    exact ⟨final, rfl, rfl⟩

theorem dates_perm_dedup (rs : List Reading) (out : List DailySummary)
    (h : aggregate rs = Except.ok out) :
    (out.map DailySummary.date).Perm ((rs.map Reading.date).dedup) := by
  obtain ⟨final, hsum, hout⟩ := aggregate_ok_elim rs out h
  have h1 : (out.map DailySummary.date).Perm (final.map DailySummary.date) := by
    rw [hout]
    exact (List.perm_insertionSort dateLe final).map DailySummary.date
  rw [summarizeAll_ok_dates _ _ hsum] at h1
  exact h1.trans (keys_groupByDate_perm_dedup rs)

/-- Claim C1: the aggregation groups readings by day key — the output's
`date` values are exactly the distinct day keys of the input (so their
counts agree), and the sample set feeding each output day's means is
exactly the multiset of AQI codes and pollutant values of the readings
with that day key, each reading contributing to exactly the one bucket of
its own day. -/
theorem c1_grouping (rs : List Reading) (out : List DailySummary)
    (h : aggregate rs = Except.ok out) :
    (out.map DailySummary.date).Perm ((rs.map Reading.date).dedup) ∧
    (∀ d : Int,
      dayAqiSamples rs d = (rs.filter (fun r => r.date = d)).map Reading.aqi) ∧
    (∀ d : Int, ∀ c : String,
      dayChanSamples rs d c =
        (rs.filter (fun r => r.date = d)).flatMap
          (fun r => (r.pollutants.filter (fun pv => pv.1 = c)).map Prod.snd)) := by
  refine ⟨dates_perm_dedup rs out h, fun d => ?_, fun d c => ?_⟩
  · have := aqi_foldl_addToDaily rs [] d
    simpa [dayAqiSamples, groupByDate, lookupKey] using this
  · have := chan_foldl_addToDaily rs [] d c
    simpa [dayChanSamples, groupByDate, lookupKey] using this

/-- Claim C3: for any input order, the output summaries are strictly
ascending by date. -/
theorem c3_sorted_output (rs : List Reading) (out : List DailySummary)
    (h : aggregate rs = Except.ok out) :
    out.Pairwise (fun a b => a.date < b.date) := by
  obtain ⟨final, hsum, hout⟩ := aggregate_ok_elim rs out h
  have hle : out.Pairwise dateLe := by
    rw [hout]
    exact List.sorted_insertionSort dateLe final
  have hnd : (out.map DailySummary.date).Nodup :=
    ((dates_perm_dedup rs out h).nodup_iff).2 (List.nodup_dedup _)
  have hne : out.Pairwise (fun a b => a.date ≠ b.date) :=
    List.pairwise_map.1 hnd
  exact (hle.and hne).imp (fun hab => lt_of_le_of_ne hab.1 hab.2)

/-- Witness for C1 on the concrete input `c1In`. -/
theorem c1_grouping_witness :
    aggregate c1In = Except.ok c1Out ∧
    ((c1Out.map DailySummary.date).Perm ((c1In.map Reading.date).dedup) ∧
    (∀ d : Int,
      dayAqiSamples c1In d =
        (c1In.filter (fun r => r.date = d)).map Reading.aqi) ∧
    (∀ d : Int, ∀ c : String,
      dayChanSamples c1In d c =
        (c1In.filter (fun r => r.date = d)).flatMap
          (fun r => (r.pollutants.filter (fun pv => pv.1 = c)).map Prod.snd))) :=
  ⟨by decide, c1_grouping c1In c1Out (by decide)⟩

/-- Witness for C3 on the concrete reverse-chronological input `c3In`. -/
theorem c3_sorted_output_witness :
    aggregate c3In = Except.ok c3Out ∧
    c3Out.Pairwise (fun a b => a.date < b.date) :=
  ⟨by decide, c3_sorted_output c3In c3Out (by decide)⟩

theorem lookupKey_of_mem_nodup {κ α : Type} [DecidableEq κ]
    (l : List (κ × α)) (k : κ) (v : α) (hmem : (k, v) ∈ l)
    (hnd : (l.map Prod.fst).Nodup) :
    lookupKey l k = some v := by
  induction l with
  | nil => cases hmem
  | cons p rest ih =>
    obtain ⟨k1, v1⟩ := p
    simp only [List.map_cons, List.nodup_cons] at hnd
    rcases List.mem_cons.1 hmem with heq | hmem2
    · cases heq
      simp [lookupKey]
    · have hk1 : k1 ≠ k := by
        rintro rfl
        exact hnd.1 (List.mem_map.2 ⟨(k1, v), hmem2, rfl⟩)
      simp only [lookupKey, if_neg hk1]
      exact ih hmem2 hnd.2

theorem int_list_sum_bounds (l : List Int) (h : ∀ x ∈ l, 1 ≤ x ∧ x ≤ 5) :
    (l.length : Int) ≤ l.sum ∧ l.sum ≤ 5 * l.length := by
  induction l with
  | nil => simp
  | cons a t ih =>
    have ha := h a (List.mem_cons_self a t)
    have ht := ih (fun x hx => h x (List.mem_cons_of_mem a hx))
    simp only [List.sum_cons, List.length_cons]
    push_cast
    omega

theorem le_roundHalfEven (q : ℚ) (n : Int) (h : (n : ℚ) ≤ q) :
    n ≤ roundHalfEven q := by
  unfold roundHalfEven
  have hf : n ≤ ⌊q⌋ := Int.le_floor.2 h
  split_ifs <;> omega

theorem roundHalfEven_le (q : ℚ) (n : Int) (h : q ≤ (n : ℚ)) :
    roundHalfEven q ≤ n := by
  unfold roundHalfEven
  have hf : ⌊q⌋ ≤ n := by
    have h1 : (⌊q⌋ : ℚ) ≤ (n : ℚ) := le_trans (Int.floor_le q) h
    exact_mod_cast h1
  have hfl : (⌊q⌋ : ℚ) ≤ q := Int.floor_le q
  split_ifs with h1 h2 h3
  · exact hf
  · rcases lt_or_eq_of_le hf with hlt | heq
    · omega
    · exfalso
      rw [heq] at h2 hfl
      linarith
  · exact hf
  · push_neg at h1
    rcases lt_or_eq_of_le hf with hlt | heq
    · omega
    · exfalso
      rw [heq] at h1 hfl
      linarith

theorem mean_bounds (l : List Int) (hne : l ≠ [])
    (h : ∀ x ∈ l, 1 ≤ x ∧ x ≤ 5) :
    (1 : ℚ) ≤ ((l.sum : Int) : ℚ) / (l.length : ℚ) ∧
    ((l.sum : Int) : ℚ) / (l.length : ℚ) ≤ 5 := by
  obtain ⟨h1, h2⟩ := int_list_sum_bounds l h
  have hlen : 0 < l.length := List.length_pos.2 hne
  have hlq : (0 : ℚ) < (l.length : ℚ) := by exact_mod_cast hlen
  have h1q : ((l.length : Int) : ℚ) ≤ ((l.sum : Int) : ℚ) := by exact_mod_cast h1
  have h2q : ((l.sum : Int) : ℚ) ≤ 5 * ((l.length : Int) : ℚ) := by
    exact_mod_cast h2
  constructor
  · rw [le_div_iff₀ hlq]
    push_cast at h1q ⊢
    linarith
  · rw [div_le_iff₀ hlq]
    push_cast at h2q ⊢
    linarith

/-- Claim C10: if every input AQI code lies in 1..5 then every output day's
aggregated `aqi` lies in 1..5 and no output label is `Unknown`. -/
theorem c10_aqi_in_range (rs : List Reading) (out : List DailySummary)
    (hin : ∀ r ∈ rs, 1 ≤ r.aqi ∧ r.aqi ≤ 5)
    (h : aggregate rs = Except.ok out) :
    ∀ s ∈ out, (1 ≤ s.aqi ∧ s.aqi ≤ 5) ∧ s.aqi_description ≠ "Unknown" := by
  obtain ⟨final, hsum, hout⟩ := aggregate_ok_elim rs out h
  intro s hs
  have hsf : s ∈ final := by
    rw [hout, sortByDate] at hs
    exact (List.mem_insertionSort dateLe).1 hs
  obtain ⟨d, b, hmem, hok⟩ := summarizeAll_ok_mem _ _ _ hsum hsf
  have hkey : lookupKey (groupByDate rs) d = some b :=
    lookupKey_of_mem_nodup _ d b hmem (keys_groupByDate_nodup rs)
  have hvals : b.aqi_values = (rs.filter (fun r => r.date = d)).map Reading.aqi := by
    have hchar := aqi_foldl_addToDaily rs [] d
    rw [show rs.foldl addToDaily [] = groupByDate rs from rfl, hkey] at hchar
    simpa using hchar
  have hne : b.aqi_values ≠ [] := by
    have hd : d ∈ (groupByDate rs).map Prod.fst :=
      List.mem_map.2 ⟨(d, b), hmem, rfl⟩
    rw [mem_keys_groupByDate] at hd
    obtain ⟨r, hr, hrd⟩ := List.mem_map.1 hd
    rw [hvals]
    have hrf : r ∈ rs.filter (fun r => r.date = d) :=
      List.mem_filter.2 ⟨hr, by simp [hrd]⟩
    exact List.ne_nil_of_mem (List.mem_map.2 ⟨r, hrf, rfl⟩)
  have helem : ∀ x ∈ b.aqi_values, 1 ≤ x ∧ x ≤ 5 := by
    rw [hvals]
    intro x hx
    obtain ⟨r, hr, rfl⟩ := List.mem_map.1 hx
    exact hin r (List.mem_of_mem_filter hr)
  obtain ⟨hdate, haqi, hdesc⟩ := summarize_ok_fields d b s hok
  obtain ⟨hm1, hm5⟩ := mean_bounds b.aqi_values hne helem
  have hlow : 1 ≤ s.aqi := by
    rw [haqi]
    exact le_roundHalfEven _ 1 (by exact_mod_cast hm1)
  have hhigh : s.aqi ≤ 5 := by
    rw [haqi]
    exact roundHalfEven_le _ 5 (by exact_mod_cast hm5)
  refine ⟨⟨hlow, hhigh⟩, ?_⟩
  rw [hdesc]
  interval_cases h : s.aqi <;> decide

/-- Witness for C10 on the concrete input `c10In`. -/
theorem c10_aqi_in_range_witness :
    (∀ r ∈ c10In, 1 ≤ r.aqi ∧ r.aqi ≤ 5) ∧
    (∀ s ∈ c10Out, (1 ≤ s.aqi ∧ s.aqi ≤ 5) ∧ s.aqi_description ≠ "Unknown") :=
  ⟨by decide, c10_aqi_in_range c10In c10Out (by decide) (by decide)⟩

theorem processItems_error_of_mem (items : List RawItem) (it : RawItem)
    (e : PipeError) (hmem : it ∈ items)
    (hfail : normalize it = Except.error e) :
    ∃ e2, processItems items = Except.error e2 := by
  induction items with
  | nil => cases hmem
  | cons a rest ih =>
    rcases List.mem_cons.1 hmem with rfl | hmem2
    · refine ⟨e, ?_⟩
      unfold processItems
      rw [hfail]
    · cases ha : normalize a with
      | error e2 =>
        refine ⟨e2, ?_⟩
        unfold processItems
        rw [ha]
      | ok r =>
        obtain ⟨e2, h2⟩ := ih hmem2
        refine ⟨e2, ?_⟩
        unfold processItems
        rw [ha, h2]

/-- Claim C6: a raw record whose `components` lack the `so2` channel (its
other fields being readable) makes normalization fail with the error naming
`so2`, and a run containing such a record yields no summary list at all. -/
theorem c6_missing_so2 (items : List RawItem) (it : RawItem)
    (dtv aqiv : Int) (vco vno vno2 vo3 : ℚ)
    (hmem : it ∈ items)
    (hdt : it.dt = some dtv) (haqi : it.main_aqi = some aqiv)
    (hco : lookupKey it.components "co" = some vco)
    (hno : lookupKey it.components "no" = some vno)
    (hno2 : lookupKey it.components "no2" = some vno2)
    (ho3 : lookupKey it.components "o3" = some vo3)
    (hso2 : lookupKey it.components "so2" = none) :
    normalize it = Except.error (PipeError.keyError "so2") ∧
    ∀ out : List DailySummary, get_aqi_data items ≠ Except.ok out := by
  have hnorm : normalize it = Except.error (PipeError.keyError "so2") := by
    simp only [normalize, getKey, getComp, hdt, haqi, hco, hno, hno2, ho3,
      hso2, bind, Except.bind]
  refine ⟨hnorm, ?_⟩
  obtain ⟨e2, h2⟩ := processItems_error_of_mem items it _ hmem hnorm
  unfold get_aqi_data
  rw [h2]
  intro out hcontra
  cases hcontra

/-- Witness for C6 on the concrete run `c6Items` containing `c6BadItem`. -/
theorem c6_missing_so2_witness :
    normalize c6BadItem = Except.error (PipeError.keyError "so2") ∧
    ∀ out : List DailySummary, get_aqi_data c6Items ≠ Except.ok out :=
  c6_missing_so2 c6Items c6BadItem 90000 2 1 2 3 4 (by decide) (by decide)
    (by decide) (by decide) (by decide) (by decide) (by decide) (by decide)

/-- Counterexample to C7 as stated: on a bucket with no `so2` entry at all,
the per-bucket aggregation does not fail with any error — it succeeds and
silently omits the channel from that day's output. -/
theorem c7_counterexample :
    summarize 0 c7MissingBucket = Except.ok c7MissingOut ∧
    lookupKey c7MissingOut.pollutants "so2" = none := by
  decide

theorem avgPollutants_error_of_empty (ps : List (String × List ℚ))
    (c : String) (h : (c, ([] : List ℚ)) ∈ ps) :
    avgPollutants ps = Except.error PipeError.zeroDivision := by
  induction ps with
  | nil => cases h
  | cons p rest ih =>
    obtain ⟨n, vs⟩ := p
    rcases List.mem_cons.1 h with heq | hmem
    · cases heq
      simp [avgPollutants]
    · unfold avgPollutants
      by_cases hvs : vs.length = 0
      · rw [if_pos hvs]
      · rw [if_neg hvs, ih hmem]

/-- Amended C7: the code has no `IncompleteBucket` error.  A channel entry
that is present with an empty sample list makes the aggregation of that
bucket fail with the `ZeroDivisionError` of `sum(values)/len(values)`
(never a silent zero), while a channel key absent from the bucket mapping
is silently skipped (see the counterexample). -/
theorem c7_empty_channel (d : Int) (b : Bucket) (c : String)
    (h : (c, ([] : List ℚ)) ∈ b.pollutants) :
    summarize d b = Except.error PipeError.zeroDivision := by
  unfold summarize
  by_cases hl : b.aqi_values.length = 0
  · rw [if_pos hl]
  · rw [if_neg hl, avgPollutants_error_of_empty b.pollutants c h]

/-- Witness for amended C7 on the concrete bucket `c7EmptyBucket`. -/
theorem c7_empty_channel_witness :
    (("so2", ([] : List ℚ)) ∈ c7EmptyBucket.pollutants) ∧
    summarize 0 c7EmptyBucket = Except.error PipeError.zeroDivision :=
  ⟨by decide, c7_empty_channel 0 c7EmptyBucket "so2" (by decide)⟩

/-- Counterexample to C8 as stated: a single reading whose `pm2_5` value
`10.004` has three decimal places is not carried unchanged — the output day
holds `10`, the 2-decimal rounding of the mean of one sample. -/
theorem c8_counterexample :
    aggregate [c8Precise] = Except.ok [c8PreciseOut] ∧
    lookupKey c8PreciseOut.pollutants "pm2_5" ≠
      lookupKey c8Precise.pollutants "pm2_5" := by
  decide

theorem lookupKey_append {κ α : Type} [DecidableEq κ]
    (l1 l2 : List (κ × α)) (k : κ) :
    lookupKey (l1 ++ l2) k =
      match lookupKey l1 k with
      | some v => some v
      | none => lookupKey l2 k := by
  induction l1 with
  | nil => simp [lookupKey]
  | cons p rest ih =>
    obtain ⟨k1, v⟩ := p
    by_cases h : k1 = k <;> simp [lookupKey, h, ih]

theorem upsert_of_lookup_none {κ α : Type} [DecidableEq κ]
    (l : List (κ × α)) (k : κ) (dflt : α) (f : α → α)
    (h : lookupKey l k = none) :
    upsert l k dflt f = l ++ [(k, f dflt)] := by
  induction l with
  | nil => rfl
  | cons p rest ih =>
    obtain ⟨k1, v⟩ := p
    by_cases hk : k1 = k
    · exfalso
      rw [lookupKey, if_pos hk] at h
      cases h
    · rw [lookupKey, if_neg hk] at h
      simp [upsert, hk, ih h]

theorem foldl_appendPollutant_fresh (l : List (String × ℚ))
    (ps : List (String × List ℚ))
    (hnd : (l.map Prod.fst).Nodup)
    (hdisj : ∀ p ∈ l, lookupKey ps p.1 = none) :
    l.foldl (fun acc pv => appendPollutant acc pv.1 pv.2) ps =
      ps ++ l.map (fun pv => (pv.1, [pv.2])) := by
  induction l generalizing ps with
  | nil => simp
  | cons p rest ih =>
    obtain ⟨n, v⟩ := p
    simp only [List.foldl_cons]
    have hps : lookupKey ps n = none := hdisj (n, v) (List.mem_cons_self _ _)
    have happ : appendPollutant ps n v = ps ++ [(n, [v])] := by
      rw [appendPollutant, upsert_of_lookup_none _ _ _ _ hps]
      simp
    simp only [List.map_cons, List.nodup_cons] at hnd
    have hdisj2 : ∀ p ∈ rest, lookupKey (ps ++ [(n, [v])]) p.1 = none := by
      intro p hp
      rw [lookupKey_append, hdisj p (List.mem_cons_of_mem _ hp)]
      have hpm : p.1 ∈ rest.map Prod.fst := List.mem_map.2 ⟨p, hp, rfl⟩
      have hpn : ¬(n = p.1) := fun heq => hnd.1 (heq ▸ hpm)
      simp [lookupKey, hpn]
    rw [happ, ih (ps ++ [(n, [v])]) hnd.2 hdisj2]
    simp

theorem bucketAdd_empty (r : Reading)
    (h : (r.pollutants.map Prod.fst).Nodup) :
    bucketAdd emptyBucket r =
      ⟨[r.aqi], r.pollutants.map (fun pv => (pv.1, [pv.2]))⟩ := by
  unfold bucketAdd emptyBucket
  rw [foldl_appendPollutant_fresh r.pollutants [] h (fun p _ => rfl)]
  simp

theorem avgPollutants_singletons (l : List (String × ℚ)) :
    avgPollutants (l.map (fun pv => (pv.1, [pv.2]))) =
      Except.ok (l.map (fun pv => (pv.1, round2 pv.2))) := by
  induction l with
  | nil => rfl
  | cons p rest ih =>
    obtain ⟨n, v⟩ := p
    simp [avgPollutants, ih]

theorem roundHalfEven_intCast (n : Int) : roundHalfEven ((n : Int) : ℚ) = n := by
  unfold roundHalfEven
  rw [Int.floor_intCast]
  norm_num

/-- Amended C8: a single day with a single reading yields that reading's
AQI code unchanged, and each pollutant value as the 2-decimal rounding of
the one-sample mean — not the raw value when it carries more than two
decimal places (see the counterexample). -/
theorem c8_single_reading (r : Reading)
    (h : (r.pollutants.map Prod.fst).Nodup) :
    aggregate [r] = Except.ok
      [⟨r.date, r.aqi, get_aqi_description r.aqi,
        r.pollutants.map (fun pv => (pv.1, round2 pv.2))⟩] := by
  have hsumm : summarize r.date (bucketAdd emptyBucket r) =
      Except.ok ⟨r.date, r.aqi, get_aqi_description r.aqi,
        r.pollutants.map (fun pv => (pv.1, round2 pv.2))⟩ := by
    rw [bucketAdd_empty r h]
    simp only [summarize, avgPollutants_singletons]
    norm_num [roundHalfEven_intCast]
  have hgroup : groupByDate [r] = [(r.date, bucketAdd emptyBucket r)] := rfl
  unfold aggregate
  rw [hgroup]
  unfold summarizeAll
  rw [hsumm]
  rfl

/-- Witness for amended C8 on a concrete single reading. -/
theorem c8_single_reading_witness :
    ((sampleReading 1 2 10).pollutants.map Prod.fst).Nodup ∧
    aggregate [sampleReading 1 2 10] = Except.ok
      [⟨(sampleReading 1 2 10).date, (sampleReading 1 2 10).aqi,
        get_aqi_description (sampleReading 1 2 10).aqi,
        (sampleReading 1 2 10).pollutants.map (fun pv => (pv.1, round2 pv.2))⟩] :=
  ⟨by decide, c8_single_reading (sampleReading 1 2 10) (by decide)⟩

end BlrAqi
